import Mathlib

/-!
Shallow embedding of the tic-tac-toe session manager
(`src/game/gameLogic.ts`, `src/game/gameManager.ts`, `src/types/index.ts`).

Modelling choices:
* `uuidv4()` is modelled by a deterministic fresh-id supply (a `Nat` counter
  threaded through the manager state); room ids and game ids draw from the
  same counter, so every generated id is distinct from all earlier ones.
* `Math.random() < 0.5` in `createNewGame` is modelled by an explicit
  `coin : Bool` argument (`true` plays the role of `isPlayer1X`).
* JavaScript objects are mutable and aliased by reference.  In this program
  every connection owns exactly one `Player` object (created once per
  socket), so two list entries alias the same object iff they carry the
  same connection `id`.  A field assignment `player.f = v` is therefore
  modelled as updating every list entry whose `id` equals the target's
  (`updateById`), which coincides with a plain per-element update whenever
  the ids in the list are distinct.
* `createdAt` / `updatedAt` timestamps are not modelled (no claim mentions
  them).
* The SQLite sink (`DatabaseManager`) is external.  Its calls sit inside
  `try/catch` blocks in the source; whether a call throws is modelled by a
  `DbSink` record of booleans, and a caught throw contributes a log entry
  (mirroring `console.error`) instead of propagating.
-/

inductive Mark where
  | X
  | O
deriving DecidableEq, Repr

/-- `CellValue = 'X' | 'O' | null` -/
abbrev Cell := Option Mark

/-- `GameBoard = CellValue[][]` (always 3×3 in this program). -/
abbrev Board := List (List Cell)

/-- `GameResult = 'X' | 'O' | 'draw' | null` -/
inductive GameResult where
  | mark (m : Mark)
  | draw
  | none
deriving DecidableEq, Repr

/-- `GameStatus = 'waiting' | 'playing' | 'finished'` -/
inductive GameStatus where
  | waiting
  | playing
  | finished
deriving DecidableEq, Repr

/-- `interface Player` (symbol is never `null` in the source type). -/
structure Player where
  id : String
  telegramId : Nat
  username : String
  symbol : Mark
  isReady : Bool
deriving DecidableEq, Repr

/-- `interface GameState` minus the unmodelled timestamps. -/
structure GameState where
  id : Nat
  players : List Player
  board : Board
  currentPlayer : Mark
  status : GameStatus
  result : GameResult
deriving DecidableEq, Repr

/-- `interface GameRoom` -/
structure GameRoom where
  id : Nat
  game : GameState
  spectators : List String
deriving DecidableEq, Repr

/-- `board[row][col]` (out-of-range access is never reached on a guarded
path; it returns the empty cell here). -/
def getCell (b : Board) (row col : Nat) : Cell :=
  (b.getD row []).getD col Option.none

/-- `board[row][col] = v` (in-place element write; no-op out of range,
which is never reached on a guarded path). -/
def setCell (b : Board) (row col : Nat) (v : Cell) : Board :=
  b.set row ((b.getD row []).set col v)

/-- Mutation of a shared `Player` object: assignment through one reference
updates every alias, i.e. every list entry with the same connection id. -/
def updateById (ps : List Player) (pid : String) (f : Player → Player) : List Player :=
  ps.map (fun p => if p.id = pid then f p else p)

/-- `GameLogic.makeMove`'s return shape `{ success, error? }`. -/
structure MoveResult where
  success : Bool
  error : Option String
deriving DecidableEq, Repr

namespace GameLogic

/-- `GameLogic.createEmptyBoard` -/
def createEmptyBoard : Board :=
  [ [Option.none, Option.none, Option.none],
    [Option.none, Option.none, Option.none],
    [Option.none, Option.none, Option.none] ]

/-- `GameLogic.createNewGame(player1, player2)`: the two arguments are the
live objects stored in the room's `players` array, so the two symbol
assignments are modelled on the whole list via `updateById` (when both
array slots alias one object, the second assignment overwrites the first —
exactly the JavaScript behaviour). `gid` is the fresh `uuidv4()`, `coin` is
`Math.random() < 0.5` (the `isPlayer1X` draw). -/
def createNewGame (gid : Nat) (coin : Bool) (ps : List Player) : GameState :=
  let id1 := match ps.get? 0 with | some p => p.id | Option.none => ""
  let ps := updateById ps id1 (fun p => { p with symbol := if coin then Mark.X else Mark.O })
  let id2 := match ps.get? 1 with | some p => p.id | Option.none => ""
  let ps := updateById ps id2 (fun p => { p with symbol := if coin then Mark.O else Mark.X })
  { id := gid
    players := ps
    board := createEmptyBoard
    currentPlayer := Mark.X
    status := GameStatus.playing
    result := GameResult.none }

/-- `GameLogic.isValidMove` -/
def isValidMove (board : Board) (row col : Int) : Bool :=
  if row < 0 || row > 2 || col < 0 || col > 2 then
    false
  else
    (getCell board row.toNat col.toNat).isNone

/-- One `if (a && a === b && b === c) return a;` line check. -/
def winTriple (a b c : Cell) : Option Mark :=
  match a with
  | some m => if b = a && c = b then some m else Option.none
  | Option.none => Option.none

/-- `GameLogic.checkGameResult`: rows, then columns, then the two
diagonals, then the full-board draw check. -/
def checkGameResult (b : Board) : GameResult :=
  match List.findSome? (fun r => winTriple (getCell b r 0) (getCell b r 1) (getCell b r 2)) [0, 1, 2] with
  | some m => GameResult.mark m
  | Option.none =>
  match List.findSome? (fun c => winTriple (getCell b 0 c) (getCell b 1 c) (getCell b 2 c)) [0, 1, 2] with
  | some m => GameResult.mark m
  | Option.none =>
  match winTriple (getCell b 0 0) (getCell b 1 1) (getCell b 2 2) with
  | some m => GameResult.mark m
  | Option.none =>
  match winTriple (getCell b 0 2) (getCell b 1 1) (getCell b 2 0) with
  | some m => GameResult.mark m
  | Option.none =>
  if b.all (fun row => row.all (fun cell => cell.isSome)) then
    GameResult.draw
  else
    GameResult.none

/-- `GameLogic.makeMove` (the source mutates `game` in place; the model
returns the result together with the post-state). -/
def makeMove (game : GameState) (playerId : String) (row col : Int) :
    MoveResult × GameState :=
  if game.status ≠ GameStatus.playing then
    ({ success := false, error := some "Game is not active" }, game)
  else
    match game.players.find? (fun p => p.id == playerId) with
    | Option.none => ({ success := false, error := some "Player not found" }, game)
    | some player =>
      if player.symbol ≠ game.currentPlayer then
        ({ success := false, error := some "Not your turn" }, game)
      else if ¬ isValidMove game.board row col then
        ({ success := false, error := some "Invalid move" }, game)
      else
        let board := setCell game.board row.toNat col.toNat (some player.symbol)
        let result := checkGameResult board
        let game :=
          match result with
          | GameResult.none =>
            { game with
                board := board
                currentPlayer := if game.currentPlayer = Mark.X then Mark.O else Mark.X }
          | r =>
            { game with board := board, result := r, status := GameStatus.finished }
        ({ success := true, error := Option.none }, game)

/-- The `players.forEach` loop of `resetGame`: a sequential pass over the
array indices, each iteration mutating the object found at that index
(an aliased object is visited once per slot, like in JavaScript). -/
def swapSymbolsLoop (ps : List Player) : List Player :=
  (List.range ps.length).foldl
    (fun acc i =>
      match acc.get? i with
      | some p =>
          updateById acc p.id
            (fun q => { q with
                          symbol := if q.symbol = Mark.X then Mark.O else Mark.X
                          isReady := false })
      | Option.none => acc)
    ps

/-- `GameLogic.resetGame` (`newGid` is the fresh `uuidv4()`; the source's
`newStartingPlayer || 'X'` fallback is dead code because
`newStartingPlayer` is always `'X'` or `'O'`). -/
def resetGame (newGid : Nat) (game : GameState) : GameState :=
  let newStartingPlayer := if game.currentPlayer = Mark.X then Mark.O else Mark.X
  let ps := swapSymbolsLoop game.players
  { game with
      id := newGid
      players := ps
      board := createEmptyBoard
      currentPlayer := newStartingPlayer
      status := GameStatus.playing
      result := GameResult.none }

end GameLogic

/-- Whether the external sink's two async operations resolve (`true`) or
reject/throw (`false`). -/
structure DbSink where
  saveGameOk : Bool
  statsOk : Bool
deriving DecidableEq, Repr

/-- `GameManager`'s private fields plus the fresh-id counter that stands in
for `uuidv4()`.  The two `Map`s are modelled as partial functions. -/
structure Manager where
  rooms : Nat → Option GameRoom
  playerRooms : String → Option Nat
  matchmakingQueue : List String
  nextId : Nat

/-- The empty registry a freshly constructed `GameManager` holds. -/
def Manager.empty : Manager :=
  { rooms := fun _ => Option.none
    playerRooms := fun _ => Option.none
    matchmakingQueue := []
    nextId := 0 }

def Manager.setRoom (m : Manager) (rid : Nat) (room : GameRoom) : Manager :=
  { m with rooms := fun k => if k = rid then some room else m.rooms k }

def Manager.delRoom (m : Manager) (rid : Nat) : Manager :=
  { m with rooms := fun k => if k = rid then Option.none else m.rooms k }

def Manager.setPlayerRoom (m : Manager) (pid : String) (rid : Nat) : Manager :=
  { m with playerRooms := fun k => if k = pid then some rid else m.playerRooms k }

def Manager.delPlayerRoom (m : Manager) (pid : String) : Manager :=
  { m with playerRooms := fun k => if k = pid then Option.none else m.playerRooms k }

/-- Draw one fresh id from the `uuidv4()` supply. -/
def Manager.freshId (m : Manager) : Nat × Manager :=
  (m.nextId, { m with nextId := m.nextId + 1 })

/-- `indexOf` + `splice(index, 1)`: remove the first occurrence only. -/
def removeFirst : List String → String → List String
  | [], _ => []
  | a :: rest, x => if a == x then rest else a :: removeFirst rest x

/-- `GameManager.joinRoom`'s return shape `{ success, room?, error? }`. -/
structure JoinResult where
  success : Bool
  room : Option GameRoom
  error : Option String
deriving DecidableEq, Repr

/-- `GameManager.makeMove`'s return shape `{ success, room?, error? }`. -/
structure MoveResultM where
  success : Bool
  room : Option GameRoom
  error : Option String
deriving DecidableEq, Repr

/-- `GameManager.leaveRoom`'s return shape `{ success, roomId? }`. -/
structure LeaveResult where
  success : Bool
  roomId : Option Nat
deriving DecidableEq, Repr

namespace GameManager

/-- `GameManager.createRoom` (allocates `roomId` then the game's id, in
source order). -/
def createRoom (player : Player) (m : Manager) : Nat × Manager :=
  let (roomId, m) := m.freshId
  let (gid, m) := m.freshId
  let game : GameState :=
    { id := gid
      players := [player]
      board := GameLogic.createEmptyBoard
      currentPlayer := Mark.X
      status := GameStatus.waiting
      result := GameResult.none }
  let room : GameRoom := { id := roomId, game := game, spectators := [] }
  let m := m.setRoom roomId room
  let m := m.setPlayerRoom player.id roomId
  (roomId, m)

/-- `GameManager.joinRoom` (`coin` feeds `createNewGame`'s mark draw when
the game starts). -/
def joinRoom (roomId : Nat) (player : Player) (coin : Bool) (m : Manager) :
    JoinResult × Manager :=
  match m.rooms roomId with
  | Option.none =>
      ({ success := false, room := Option.none, error := some "Room not found" }, m)
  | some room =>
    if room.game.players.length ≥ 2 then
      let room := { room with spectators := room.spectators ++ [player.id] }
      ({ success := true, room := some room, error := Option.none }, m.setRoom roomId room)
    else
      let room := { room with game := { room.game with players := room.game.players ++ [player] } }
      let m := m.setRoom roomId room
      let m := m.setPlayerRoom player.id roomId
      if room.game.players.length = 2 then
        let (gid, m) := m.freshId
        let room := { room with game := GameLogic.createNewGame gid coin room.game.players }
        let m := m.setRoom roomId room
        ({ success := true, room := some room, error := Option.none }, m)
      else
        ({ success := true, room := some room, error := Option.none }, m)

/-- `GameManager.findMatch`. -/
def findMatch (player : Player) (coin : Bool) (m : Manager) :
    (Bool × Option GameRoom) × Manager :=
  let m := { m with matchmakingQueue := removeFirst m.matchmakingQueue player.id }
  match m.matchmakingQueue with
  | waitingPlayerId :: rest =>
    let m := { m with matchmakingQueue := rest }
    let tryMatch : Option (GameRoom × Manager) :=
      match m.playerRooms waitingPlayerId with
      | some waitingPlayerRoom =>
        match m.rooms waitingPlayerRoom with
        | some room =>
          if room.game.players.length = 1 then
            match joinRoom waitingPlayerRoom player coin m with
            | (jr, m) =>
              if jr.success then
                match jr.room with
                | some r => some (r, m)
                | Option.none => Option.none
              else Option.none
          else Option.none
        | Option.none => Option.none
      | Option.none => Option.none
    match tryMatch with
    | some (r, m) => ((true, some r), m)
    | Option.none =>
      let (_, m) := createRoom player m
      let m := { m with matchmakingQueue := m.matchmakingQueue ++ [player.id] }
      ((false, Option.none), m)
  | [] =>
    let (_, m) := createRoom player m
    let m := { m with matchmakingQueue := m.matchmakingQueue ++ [player.id] }
    ((false, Option.none), m)

/-- `GameManager.updatePlayerStats`: the whole body sits in `try/catch`, so
a throwing sink contributes a log line and nothing else.  No registry
state is touched either way. -/
def updatePlayerStats (db : DbSink) (_game : GameState) : List String :=
  if db.statsOk then [] else ["Failed to update player stats:"]

/-- `GameManager.makeMove`: result, post-registry, and `console.error`
log.  The `db.saveGame` call is wrapped in its own `try/catch`. -/
def makeMove (db : DbSink) (playerId : String) (row col : Int) (m : Manager) :
    MoveResultM × Manager × List String :=
  match m.playerRooms playerId with
  | Option.none =>
      ({ success := false, room := Option.none, error := some "Player not in any room" }, m, [])
  | some roomId =>
    match m.rooms roomId with
    | Option.none =>
        ({ success := false, room := Option.none, error := some "Room not found" }, m, [])
    | some room =>
      match GameLogic.makeMove room.game playerId row col with
      | (moveResult, game) =>
        if ¬ moveResult.success then
          ({ success := false, room := Option.none, error := moveResult.error }, m, [])
        else
          let room := { room with game := game }
          let m := m.setRoom roomId room
          let saveLog := if db.saveGameOk then [] else ["Failed to save game:"]
          let statsLog :=
            if room.game.status = GameStatus.finished then updatePlayerStats db room.game
            else []
          ({ success := true, room := some room, error := Option.none }, m, saveLog ++ statsLog)

/-- `GameManager.handleRematch`. -/
def handleRematch (playerId : String) (m : Manager) : JoinResult × Manager :=
  match m.playerRooms playerId with
  | Option.none =>
      ({ success := false, room := Option.none, error := some "Player not in any room" }, m)
  | some roomId =>
    match m.rooms roomId with
    | Option.none =>
        ({ success := false, room := Option.none, error := some "Room not found" }, m)
    | some room =>
      if room.game.status ≠ GameStatus.finished then
        ({ success := false, room := Option.none, error := some "Game is not finished" }, m)
      else
        let players :=
          match room.game.players.find? (fun p => p.id == playerId) with
          | some p => updateById room.game.players p.id (fun q => { q with isReady := true })
          | Option.none => room.game.players
        let room := { room with game := { room.game with players := players } }
        let allReady := players.all (fun p => p.isReady)
        if allReady then
          let (gid, m) := m.freshId
          let room := { room with game := GameLogic.resetGame gid room.game }
          let m := m.setRoom roomId room
          ({ success := true, room := some room, error := Option.none }, m)
        else
          let m := m.setRoom roomId room
          ({ success := true, room := some room, error := Option.none }, m)

/-- `GameManager.leaveRoom`. -/
def leaveRoom (playerId : String) (m : Manager) : LeaveResult × Manager :=
  match m.playerRooms playerId with
  | Option.none => ({ success := false, roomId := Option.none }, m)
  | some roomId =>
    match m.rooms roomId with
    | Option.none => ({ success := false, roomId := Option.none }, m)
    | some room =>
      let room :=
        { room with
            game := { room.game with
                        players := room.game.players.filter (fun p => ¬ p.id == playerId) }
            spectators := room.spectators.filter (fun sid => ¬ sid == playerId) }
      let m := { m with matchmakingQueue := removeFirst m.matchmakingQueue playerId }
      let m := m.setRoom roomId room
      let m := m.delPlayerRoom playerId
      let m :=
        if room.game.players.length = 0 ∧ room.spectators.length = 0 then
          m.delRoom roomId
        else m
      ({ success := true, roomId := some roomId }, m)

end GameManager

instance : Fintype Mark :=
  ⟨⟨{Mark.X, Mark.O}, by decide⟩, by intro x; cases x <;> decide⟩

/-- Modelled from the spec: "three identical non-empty marks M occupy some
row, column, or diagonal" of the 3×3 board (the eight lines written out). -/
def specHasLine (b : Board) (m : Mark) : Prop :=
  (getCell b 0 0 = some m ∧ getCell b 0 1 = some m ∧ getCell b 0 2 = some m) ∨
  (getCell b 1 0 = some m ∧ getCell b 1 1 = some m ∧ getCell b 1 2 = some m) ∨
  (getCell b 2 0 = some m ∧ getCell b 2 1 = some m ∧ getCell b 2 2 = some m) ∨
  (getCell b 0 0 = some m ∧ getCell b 1 0 = some m ∧ getCell b 2 0 = some m) ∨
  (getCell b 0 1 = some m ∧ getCell b 1 1 = some m ∧ getCell b 2 1 = some m) ∨
  (getCell b 0 2 = some m ∧ getCell b 1 2 = some m ∧ getCell b 2 2 = some m) ∨
  (getCell b 0 0 = some m ∧ getCell b 1 1 = some m ∧ getCell b 2 2 = some m) ∨
  (getCell b 0 2 = some m ∧ getCell b 1 1 = some m ∧ getCell b 2 0 = some m)

/-- Modelled from the spec: "all 9 cells are occupied". -/
def specAllFilled (b : Board) : Bool :=
  (List.range 3).all (fun r => (List.range 3).all (fun c => (getCell b r c).isSome))

/-- The scan order of `checkGameResult`, abstracted over the eight line
checks (first hit wins, then the draw test). -/
def lineScan (ts : List (Option Mark)) (full : Bool) : GameResult :=
  match ts.findSome? id with
  | some m => GameResult.mark m
  | Option.none => if full then GameResult.draw else GameResult.none

theorem winTriple_eq_some (a b c : Cell) (m : Mark) :
    GameLogic.winTriple a b c = some m ↔ (a = some m ∧ b = some m ∧ c = some m) := by
  revert a b c m; decide

theorem eq_some_winTriple (a b c : Cell) (m : Mark) :
    some m = GameLogic.winTriple a b c ↔ (a = some m ∧ b = some m ∧ c = some m) := by
  revert a b c m; decide

theorem lineScan_mark (ts : List (Option Mark)) (full : Bool) (m : Mark)
    (h : lineScan ts full = GameResult.mark m) : some m ∈ ts := by
  unfold lineScan at h
  cases hf : ts.findSome? id with
  | none => rw [hf] at h; cases full <;> simp at h
  | some m' =>
    rw [hf] at h
    have hm : m' = m := by simpa using h
    obtain ⟨a, ha, hid⟩ := List.exists_of_findSome?_eq_some hf
    have ha' : a = some m := by rw [← hm]; exact hid
    exact ha' ▸ ha

theorem lineScan_exists (ts : List (Option Mark)) (full : Bool)
    (h : ∃ m, some m ∈ ts) : ∃ m, lineScan ts full = GameResult.mark m := by
  obtain ⟨m, hm⟩ := h
  cases hf : ts.findSome? id with
  | none =>
    rw [List.findSome?_eq_none_iff] at hf
    have := hf (some m) hm
    simp at this
  | some m' => exact ⟨m', by simp [lineScan, hf]⟩

theorem lineScan_draw (ts : List (Option Mark)) (full : Bool) :
    lineScan ts full = GameResult.draw ↔ ((∀ m, ¬ some m ∈ ts) ∧ full = true) := by
  cases hf : ts.findSome? id with
  | none =>
    have hall : ∀ m : Mark, ¬ some m ∈ ts := by
      intro m hm
      have h2 := (List.findSome?_eq_none_iff.mp hf) (some m) hm
      simp at h2
    cases full <;> simp [lineScan, hf, hall]
  | some m' =>
    obtain ⟨a, ha, hid⟩ := List.exists_of_findSome?_eq_some hf
    have hmem : some m' ∈ ts := by
      have : a = some m' := hid
      exact this ▸ ha
    constructor
    · intro hc; simp [lineScan, hf] at hc
    · rintro ⟨hall, -⟩; exact absurd hmem (hall m')

theorem lineScan_null (ts : List (Option Mark)) (full : Bool) :
    lineScan ts full = GameResult.none ↔ ((∀ m, ¬ some m ∈ ts) ∧ full = false) := by
  cases hf : ts.findSome? id with
  | none =>
    have hall : ∀ m : Mark, ¬ some m ∈ ts := by
      intro m hm
      have h2 := (List.findSome?_eq_none_iff.mp hf) (some m) hm
      simp at h2
    cases full <;> simp [lineScan, hf, hall]
  | some m' =>
    obtain ⟨a, ha, hid⟩ := List.exists_of_findSome?_eq_some hf
    have hmem : some m' ∈ ts := by
      have : a = some m' := hid
      exact this ▸ ha
    constructor
    · intro hc; simp [lineScan, hf] at hc
    · rintro ⟨hall, -⟩; exact absurd hmem (hall m')

section ShapedBoard

variable (c00 c01 c02 c10 c11 c12 c20 c21 c22 : Cell)

theorem getCell_00 : getCell [[c00, c01, c02], [c10, c11, c12], [c20, c21, c22]] 0 0 = c00 := rfl
theorem getCell_01 : getCell [[c00, c01, c02], [c10, c11, c12], [c20, c21, c22]] 0 1 = c01 := rfl
theorem getCell_02 : getCell [[c00, c01, c02], [c10, c11, c12], [c20, c21, c22]] 0 2 = c02 := rfl
theorem getCell_10 : getCell [[c00, c01, c02], [c10, c11, c12], [c20, c21, c22]] 1 0 = c10 := rfl
theorem getCell_11 : getCell [[c00, c01, c02], [c10, c11, c12], [c20, c21, c22]] 1 1 = c11 := rfl
theorem getCell_12 : getCell [[c00, c01, c02], [c10, c11, c12], [c20, c21, c22]] 1 2 = c12 := rfl
theorem getCell_20 : getCell [[c00, c01, c02], [c10, c11, c12], [c20, c21, c22]] 2 0 = c20 := rfl
theorem getCell_21 : getCell [[c00, c01, c02], [c10, c11, c12], [c20, c21, c22]] 2 1 = c21 := rfl
theorem getCell_22 : getCell [[c00, c01, c02], [c10, c11, c12], [c20, c21, c22]] 2 2 = c22 := rfl

/-- The eight line checks of `checkGameResult`, in scan order. -/
def shapedTriples : List (Option Mark) :=
  [ GameLogic.winTriple c00 c01 c02, GameLogic.winTriple c10 c11 c12,
    GameLogic.winTriple c20 c21 c22, GameLogic.winTriple c00 c10 c20,
    GameLogic.winTriple c01 c11 c21, GameLogic.winTriple c02 c12 c22,
    GameLogic.winTriple c00 c11 c22, GameLogic.winTriple c02 c11 c20 ]

theorem checkGameResult_shaped :
    GameLogic.checkGameResult [[c00, c01, c02], [c10, c11, c12], [c20, c21, c22]] =
      lineScan (shapedTriples c00 c01 c02 c10 c11 c12 c20 c21 c22)
        (specAllFilled [[c00, c01, c02], [c10, c11, c12], [c20, c21, c22]]) := by
  simp only [GameLogic.checkGameResult, List.findSome?, lineScan, shapedTriples,
    getCell_00, getCell_01, getCell_02, getCell_10, getCell_11, getCell_12,
    getCell_20, getCell_21, getCell_22]
  cases GameLogic.winTriple c00 c01 c02 <;>
  cases GameLogic.winTriple c10 c11 c12 <;>
  cases GameLogic.winTriple c20 c21 c22 <;>
  cases GameLogic.winTriple c00 c10 c20 <;>
  cases GameLogic.winTriple c01 c11 c21 <;>
  cases GameLogic.winTriple c02 c12 c22 <;>
  cases GameLogic.winTriple c00 c11 c22 <;>
  cases GameLogic.winTriple c02 c11 c20 <;>
  rfl

theorem specHasLine_shaped (m : Mark) :
    specHasLine [[c00, c01, c02], [c10, c11, c12], [c20, c21, c22]] m ↔
      some m ∈ shapedTriples c00 c01 c02 c10 c11 c12 c20 c21 c22 := by
  simp only [specHasLine, shapedTriples, List.mem_cons, List.not_mem_nil, or_false,
    eq_some_winTriple,
    getCell_00, getCell_01, getCell_02, getCell_10, getCell_11, getCell_12,
    getCell_20, getCell_21, getCell_22]

end ShapedBoard

/-- C1: for every 3×3 board, `checkGameResult` returns a mark `M` exactly
when some row, column or diagonal holds three identical non-empty marks
(and any returned mark does lie on such a line); it returns `draw` exactly
when no line exists and all 9 cells are occupied; and `null` exactly when
no line exists and some cell is still empty. -/
theorem checkGameResult_matches_spec
    (c00 c01 c02 c10 c11 c12 c20 c21 c22 : Cell) :
    (∀ m, GameLogic.checkGameResult [[c00, c01, c02], [c10, c11, c12], [c20, c21, c22]] =
        GameResult.mark m →
      specHasLine [[c00, c01, c02], [c10, c11, c12], [c20, c21, c22]] m) ∧
    ((∃ m, specHasLine [[c00, c01, c02], [c10, c11, c12], [c20, c21, c22]] m) →
      ∃ m, GameLogic.checkGameResult [[c00, c01, c02], [c10, c11, c12], [c20, c21, c22]] =
        GameResult.mark m) ∧
    (GameLogic.checkGameResult [[c00, c01, c02], [c10, c11, c12], [c20, c21, c22]] =
        GameResult.draw ↔
      ((∀ m, ¬ specHasLine [[c00, c01, c02], [c10, c11, c12], [c20, c21, c22]] m) ∧
        specAllFilled [[c00, c01, c02], [c10, c11, c12], [c20, c21, c22]] = true)) ∧
    (GameLogic.checkGameResult [[c00, c01, c02], [c10, c11, c12], [c20, c21, c22]] =
        GameResult.none ↔
      ((∀ m, ¬ specHasLine [[c00, c01, c02], [c10, c11, c12], [c20, c21, c22]] m) ∧
        specAllFilled [[c00, c01, c02], [c10, c11, c12], [c20, c21, c22]] = false)) := by
  have hbridge := checkGameResult_shaped c00 c01 c02 c10 c11 c12 c20 c21 c22
  have hline := specHasLine_shaped c00 c01 c02 c10 c11 c12 c20 c21 c22
  refine ⟨?_, ?_, ?_, ?_⟩
  · intro m h
    rw [hbridge] at h
    exact (hline m).mpr (lineScan_mark _ _ _ h)
  · rintro ⟨m, hm⟩
    rw [hbridge]
    exact lineScan_exists _ _ ⟨m, (hline m).mp hm⟩
  · rw [hbridge, lineScan_draw]
    constructor
    · rintro ⟨h1, h2⟩
      exact ⟨fun m hm => h1 m ((hline m).mp hm), h2⟩
    · rintro ⟨h1, h2⟩
      exact ⟨fun m hm => h1 m ((hline m).mpr hm), h2⟩
  · rw [hbridge, lineScan_null]
    constructor
    · rintro ⟨h1, h2⟩
      exact ⟨fun m hm => h1 m ((hline m).mp hm), h2⟩
    · rintro ⟨h1, h2⟩
      exact ⟨fun m hm => h1 m ((hline m).mpr hm), h2⟩

/-- C1 witness: on the board with a complete `X` top row, the theorem's
first component plus the concrete evaluation yield the `X` line. -/
theorem checkGameResult_matches_spec_witness :
    specHasLine
      [[some Mark.X, some Mark.X, some Mark.X],
       [some Mark.O, some Mark.O, Option.none],
       [Option.none, Option.none, Option.none]] Mark.X :=
  (checkGameResult_matches_spec (some Mark.X) (some Mark.X) (some Mark.X)
    (some Mark.O) (some Mark.O) Option.none Option.none Option.none Option.none).1
    Mark.X rfl

/-- C4: a successful move is made by the player holding `currentPlayer`'s
mark; if the resulting board has no outcome the turn flips to the opposite
mark, and if it has an outcome the turn owner is unchanged. -/
theorem makeMove_turn_alternation (g : GameState) (pid : String) (row col : Int)
    (hs : (GameLogic.makeMove g pid row col).1.success = true) :
    (∀ p, g.players.find? (fun q => q.id == pid) = some p → p.symbol = g.currentPlayer) ∧
    (GameLogic.checkGameResult (GameLogic.makeMove g pid row col).2.board = GameResult.none →
      (GameLogic.makeMove g pid row col).2.currentPlayer =
        (if g.currentPlayer = Mark.X then Mark.O else Mark.X)) ∧
    (GameLogic.checkGameResult (GameLogic.makeMove g pid row col).2.board ≠ GameResult.none →
      (GameLogic.makeMove g pid row col).2.currentPlayer = g.currentPlayer) := by
  by_cases hstat : g.status ≠ GameStatus.playing
  · simp [GameLogic.makeMove, hstat] at hs
  · cases hfind : g.players.find? (fun q => q.id == pid) with
    | none => simp [GameLogic.makeMove, hstat, hfind] at hs
    | some player =>
      by_cases hsym : player.symbol ≠ g.currentPlayer
      · simp [GameLogic.makeMove, hstat, hfind, hsym] at hs
      · by_cases hval : GameLogic.isValidMove g.board row col
        · push_neg at hsym
          cases hres : GameLogic.checkGameResult
              (setCell g.board row.toNat col.toNat (some g.currentPlayer)) with
          | none =>
            refine ⟨fun p hp => ?_, ?_, ?_⟩
            · obtain rfl : player = p := by simpa using hp
              exact hsym
            all_goals simp [GameLogic.makeMove, hstat, hfind, hsym, hval, hres]
          | mark m =>
            refine ⟨fun p hp => ?_, ?_, ?_⟩
            · obtain rfl : player = p := by simpa using hp
              exact hsym
            all_goals simp [GameLogic.makeMove, hstat, hfind, hsym, hval, hres]
          | draw =>
            refine ⟨fun p hp => ?_, ?_, ?_⟩
            · obtain rfl : player = p := by simpa using hp
              exact hsym
            all_goals simp [GameLogic.makeMove, hstat, hfind, hsym, hval, hres]
        · push_neg at hsym
          simp [GameLogic.makeMove, hstat, hfind, hsym, hval] at hs

/-- C4 witness: X plays (0,0) on the empty board of an active game; the
move succeeds, produces no outcome, and the turn flips to O. -/
theorem makeMove_turn_alternation_witness :
    (GameLogic.makeMove
      { id := 0
        players := [{ id := "a", telegramId := 1, username := "a", symbol := Mark.X, isReady := false },
                    { id := "b", telegramId := 2, username := "b", symbol := Mark.O, isReady := false }]
        board := GameLogic.createEmptyBoard
        currentPlayer := Mark.X
        status := GameStatus.playing
        result := GameResult.none } "a" 0 0).2.currentPlayer =
      (if Mark.X = Mark.X then Mark.O else Mark.X) :=
  (makeMove_turn_alternation _ "a" 0 0 (by decide)).2.1 (by decide)

/-- C9: the result and the post-registry of `GameManager.makeMove` do not
depend on whether the persistence sink's `saveGame` / `updatePlayerStats`
calls throw; a throwing sink never rolls back or fails the move. -/
theorem makeMove_ignores_db_failures (db : DbSink) (pid : String) (row col : Int)
    (m : Manager) :
    (GameManager.makeMove db pid row col m).1 =
      (GameManager.makeMove { saveGameOk := true, statsOk := true } pid row col m).1 ∧
    (GameManager.makeMove db pid row col m).2.1 =
      (GameManager.makeMove { saveGameOk := true, statsOk := true } pid row col m).2.1 := by
  unfold GameManager.makeMove
  cases hpr : m.playerRooms pid with
  | none => simp
  | some rid =>
    cases hrm : m.rooms rid with
    | none => simp [hrm]
    | some room =>
      by_cases hsucc : (GameLogic.makeMove room.game pid row col).1.success = true <;>
        simp [hrm, hsucc]

/-- C10: `joinRoom` performs no identity check, so the sole player of a
one-player room can join their own room: the join succeeds, the game
starts (`status = playing`), and both player slots hold the same
connection with the same mark (the two slots alias one object, so the
second symbol assignment of `createNewGame` wins for both). -/
theorem joinRoom_self_join (m : Manager) (rid : Nat) (room : GameRoom) (p : Player)
    (coin : Bool) (hr : m.rooms rid = some room) (hp : room.game.players = [p]) :
    (GameManager.joinRoom rid p coin m).1.success = true ∧
    ∃ room2, ((GameManager.joinRoom rid p coin m).2).rooms rid = some room2 ∧
      room2.game.status = GameStatus.playing ∧
      room2.game.players =
        [{ p with symbol := if coin then Mark.O else Mark.X },
         { p with symbol := if coin then Mark.O else Mark.X }] := by
  simp [GameManager.joinRoom, hr, hp, GameLogic.createNewGame, updateById,
    Manager.setRoom, Manager.setPlayerRoom, Manager.freshId]

/-- C10 witness: a concrete one-player room whose player joins again. -/
theorem joinRoom_self_join_witness :
    (GameManager.joinRoom 0
      { id := "a", telegramId := 1, username := "a", symbol := Mark.X, isReady := false }
      true
      { rooms := fun k => if k = 0 then
          some { id := 0
                 game := { id := 1
                           players := [{ id := "a", telegramId := 1, username := "a",
                                         symbol := Mark.X, isReady := false }]
                           board := GameLogic.createEmptyBoard
                           currentPlayer := Mark.X
                           status := GameStatus.waiting
                           result := GameResult.none }
                 spectators := [] }
          else Option.none
        playerRooms := fun k => if k = "a" then some 0 else Option.none
        matchmakingQueue := []
        nextId := 2 }).1.success = true :=
  (joinRoom_self_join _ 0 _ _ true rfl rfl).1

def mkPlayer (pid : String) (tid : Nat) (sym : Mark) (ready : Bool) : Player :=
  { id := pid, telegramId := tid, username := pid, symbol := sym, isReady := ready }

theorem swapSymbolsLoop_pair (p q : Player) (h : p.id ≠ q.id) :
    GameLogic.swapSymbolsLoop [p, q] =
      [{ p with symbol := if p.symbol = Mark.X then Mark.O else Mark.X, isReady := false },
       { q with symbol := if q.symbol = Mark.X then Mark.O else Mark.X, isReady := false }] := by
  have h2 : q.id ≠ p.id := Ne.symm h
  simp [GameLogic.swapSymbolsLoop, updateById, List.range_succ, h, h2]

/-- A finished game in room 0: X just completed the top row, so
`currentPlayer` is still X.  Player "a" has already requested a rematch. -/
def rematchRoom : GameRoom :=
  { id := 0
    game :=
      { id := 1
        players := [mkPlayer "a" 1 Mark.X true, mkPlayer "b" 2 Mark.O false]
        board := [[some Mark.X, some Mark.X, some Mark.X],
                  [some Mark.O, some Mark.O, Option.none],
                  [Option.none, Option.none, Option.none]]
        currentPlayer := Mark.X
        status := GameStatus.finished
        result := GameResult.mark Mark.X }
    spectators := [] }

def rematchManager : Manager :=
  { rooms := fun k => if k = 0 then some rematchRoom else Option.none
    playerRooms := fun k => if k = "a" then some 0 else if k = "b" then some 0 else Option.none
    matchmakingQueue := []
    nextId := 2 }

/-- C2 counterexample: both players requested a rematch after a game whose
`currentPlayer` is `X`; the reset game's `currentPlayer` is `O`, not the
`MARK_A` (`X`) the claim demands. -/
theorem handleRematch_not_always_markA :
    (GameManager.handleRematch "b" rematchManager).1.success = true ∧
    Option.map (fun r => r.game.currentPlayer)
      (((GameManager.handleRematch "b" rematchManager).2).rooms 0) = some Mark.O ∧
    Mark.O ≠ Mark.X := by
  refine ⟨?_, ?_, by decide⟩ <;> decide

/-- C2 amended: when both players of a finished two-player room have
requested a rematch, the new game swaps the two players' marks, clears
both readiness flags, has an empty board, `status = playing`, no result, a
fresh id — but its `currentPlayer` is the mark opposite to the previous
game's `currentPlayer`, not always `X`. -/
theorem handleRematch_reset_properties
    (m : Manager) (cid : String) (rid : Nat) (room : GameRoom) (p1 p2 : Player)
    (hpr : m.playerRooms cid = some rid)
    (hrm : m.rooms rid = some room)
    (hps : room.game.players = [p1, p2])
    (hne : p1.id ≠ p2.id)
    (hcid : cid = p2.id)
    (hready : p1.isReady = true)
    (hfin : room.game.status = GameStatus.finished) :
    (GameManager.handleRematch cid m).1.success = true ∧
    ∃ room2, ((GameManager.handleRematch cid m).2).rooms rid = some room2 ∧
      room2.game.currentPlayer =
        (if room.game.currentPlayer = Mark.X then Mark.O else Mark.X) ∧
      room2.game.players =
        [{ p1 with symbol := if p1.symbol = Mark.X then Mark.O else Mark.X, isReady := false },
         { p2 with symbol := if p2.symbol = Mark.X then Mark.O else Mark.X, isReady := false }] ∧
      room2.game.board = GameLogic.createEmptyBoard ∧
      room2.game.status = GameStatus.playing ∧
      room2.game.result = GameResult.none ∧
      room2.game.id = m.nextId := by
  have hbeq : (p1.id == p2.id) = false := by simp [hne]
  have hfind : [p1, p2].find? (fun p => p.id == cid) = some p2 := by
    rw [hcid]; simp [List.find?, hbeq]
  have hne2 : p1.id ≠ ({ p2 with isReady := true } : Player).id := by simpa using hne
  have hswap := swapSymbolsLoop_pair p1 { p2 with isReady := true } hne2
  simp [GameManager.handleRematch, hpr, hrm, hfin, hps, hfind, updateById, hne,
    hready, GameLogic.resetGame, hswap, Manager.setRoom, Manager.freshId]

/-- C2 amended witness: the concrete rematch room above, instantiating the
theorem at its players. -/
theorem handleRematch_reset_properties_witness :
    (GameManager.handleRematch "b" rematchManager).1.success = true :=
  (handleRematch_reset_properties rematchManager "b" 0 rematchRoom
    (mkPlayer "a" 1 Mark.X true) (mkPlayer "b" 2 Mark.O false)
    rfl rfl rfl (by decide) rfl rfl rfl).1

/-- Room 0 holds players "a","b" and spectator "c", built by the
operations themselves: create, join, third join (spectator). -/
def spectatorDemo : Manager :=
  (GameManager.joinRoom 0 (mkPlayer "c" 3 Mark.X false) true
    (GameManager.joinRoom 0 (mkPlayer "b" 2 Mark.X false) true
      (GameManager.createRoom (mkPlayer "a" 1 Mark.X false) Manager.empty).2).2).2

/-- C5 counterexample: the spectator "c" of room 0 calls `leaveRoom`; the
call reports failure (the not-in-room signal), and "c" is NOT removed from
the spectator set — spectators never enter `playerRooms`, so the claim's
"for every player or spectator, leave succeeds and removes it" is false. -/
theorem leaveRoom_spectator_not_removed :
    (GameManager.leaveRoom "c" spectatorDemo).1.success = false ∧
    Option.map (fun r => r.spectators)
      (((GameManager.leaveRoom "c" spectatorDemo).2).rooms 0) = some ["c"] := by
  constructor <;> decide

/-- C5 amended: for a connection registered in `playerRooms` (a player),
`leaveRoom` succeeds, removes it from the room's player list, spectator
set and matchmaking queue, deletes the room exactly when the remaining
player list and spectator set are both empty, and a second leave reports
failure; a connection with no `playerRooms` entry (e.g. a spectator) gets
the not-in-room signal and the registry is untouched. -/
theorem leaveRoom_player_removal
    (m : Manager) (cid : String) (rid : Nat) (room : GameRoom)
    (hpr : m.playerRooms cid = some rid)
    (hrm : m.rooms rid = some room) :
    (GameManager.leaveRoom cid m).1 = { success := true, roomId := some rid } ∧
    ((GameManager.leaveRoom cid m).2).playerRooms cid = Option.none ∧
    ((GameManager.leaveRoom cid m).2).matchmakingQueue =
      removeFirst m.matchmakingQueue cid ∧
    (((GameManager.leaveRoom cid m).2).rooms rid = Option.none ↔
      (room.game.players.filter (fun p => ¬ p.id == cid) = [] ∧
       room.spectators.filter (fun sid => ¬ sid == cid) = [])) ∧
    (((GameManager.leaveRoom cid m).2).rooms rid ≠ Option.none →
      ((GameManager.leaveRoom cid m).2).rooms rid =
        some { room with
                 game := { room.game with
                             players := room.game.players.filter (fun p => ¬ p.id == cid) }
                 spectators := room.spectators.filter (fun sid => ¬ sid == cid) }) ∧
    (GameManager.leaveRoom cid (GameManager.leaveRoom cid m).2).1.success = false ∧
    (∀ c2 m2, m2.playerRooms c2 = Option.none →
      GameManager.leaveRoom c2 m2 = ({ success := false, roomId := Option.none }, m2)) := by
  refine ⟨?_, ?_, ?_, ?_, ?_, ?_, ?_⟩
  · simp [GameManager.leaveRoom, hpr, hrm]
  · simp only [GameManager.leaveRoom, hpr, hrm, Manager.setRoom, Manager.delPlayerRoom,
      Manager.delRoom]
    split <;> simp
  · simp only [GameManager.leaveRoom, hpr, hrm, Manager.setRoom, Manager.delPlayerRoom,
      Manager.delRoom]
    split <;> simp
  · simp only [GameManager.leaveRoom, hpr, hrm, Manager.setRoom, Manager.delPlayerRoom,
      Manager.delRoom]
    split
    · rename_i hcond
      rw [List.length_eq_zero, List.length_eq_zero] at hcond
      simpa using hcond
    · rename_i hcond
      rw [List.length_eq_zero, List.length_eq_zero] at hcond
      simp only [not_and] at hcond
      constructor
      · intro hfalse
        simp at hfalse
      · rintro ⟨h1, h2⟩
        exact absurd h2 (hcond h1)
  · simp only [GameManager.leaveRoom, hpr, hrm, Manager.setRoom, Manager.delPlayerRoom,
      Manager.delRoom]
    split
    · intro hne2
      simp at hne2
    · intro h2
      simp only [Manager.rooms]
      simp
  · have haux : ∀ c2 m2, m2.playerRooms c2 = Option.none →
        GameManager.leaveRoom c2 m2 = ({ success := false, roomId := Option.none }, m2) := by
      intro c2 m2 h2
      simp [GameManager.leaveRoom, h2]
    have hnone : ((GameManager.leaveRoom cid m).2).playerRooms cid = Option.none := by
      simp only [GameManager.leaveRoom, hpr, hrm, Manager.setRoom, Manager.delPlayerRoom,
        Manager.delRoom]
      split <;> simp
    rw [haux cid _ hnone]
  · intro c2 m2 h2
    simp [GameManager.leaveRoom, h2]

/-- C5 amended witness: player "a" of the demo room leaves successfully. -/
theorem leaveRoom_player_removal_witness :
    (GameManager.leaveRoom "a" spectatorDemo).1 =
      { success := true, roomId := some 0 } :=
  (leaveRoom_player_removal spectatorDemo "a" 0
    ((GameManager.joinRoom 0 (mkPlayer "c" 3 Mark.X false) true
      (GameManager.joinRoom 0 (mkPlayer "b" 2 Mark.X false) true
        (GameManager.createRoom (mkPlayer "a" 1 Mark.X false) Manager.empty).2).2).1.room.getD
      { id := 0, game := (GameManager.createRoom (mkPlayer "a" 1 Mark.X false) Manager.empty).2.rooms 0 |>.getD
          { id := 0, game := { id := 0, players := [], board := [], currentPlayer := Mark.X,
                               status := GameStatus.waiting, result := GameResult.none },
            spectators := [] } |>.game,
        spectators := [] })
    rfl (by decide)).1

theorem updateById_map_id (ps : List Player) (pid : String) (f : Player → Player)
    (hf : ∀ q, (f q).id = q.id) :
    (updateById ps pid f).map Player.id = ps.map Player.id := by
  induction ps with
  | nil => rfl
  | cons a l ih =>
    simp only [updateById, List.map_cons] at ih ⊢
    rw [ih]
    by_cases h : a.id = pid <;> simp [h, hf]

theorem createNewGame_players_map_id (gid : Nat) (coin : Bool) (ps : List Player) :
    (GameLogic.createNewGame gid coin ps).players.map Player.id = ps.map Player.id := by
  simp only [GameLogic.createNewGame]
  rw [updateById_map_id, updateById_map_id]
  all_goals exact fun q => rfl

/-- The state after: `findMatch(a)`, `joinRoom(0, b)`, `leaveRoom(b)`.
Room 0 now holds the single player "a" with `status = playing` (leaving
does not change the status), and "a" is still in the matchmaking queue. -/
def staleWaiterDemo : Manager :=
  (GameManager.leaveRoom "b"
    (GameManager.joinRoom 0 (mkPlayer "b" 2 Mark.X false) true
      (GameManager.findMatch (mkPlayer "a" 1 Mark.X false) true Manager.empty).2).2).2

/-- C8 counterexample: the popped waiter "a" owns a single-player room
whose status is `playing` (not WAITING, its opponent left mid-game), yet
`findMatch("c")` matches into it (`matched = true`) instead of enqueuing
the caller as the claim requires — the code checks only the player count,
not the status. -/
theorem findMatch_matches_nonwaiting_room :
    Option.map (fun r => r.game.status) (staleWaiterDemo.rooms 0) =
      some GameStatus.playing ∧
    Option.map (fun r => r.game.players.length) (staleWaiterDemo.rooms 0) = some 1 ∧
    staleWaiterDemo.matchmakingQueue = ["a"] ∧
    (GameManager.findMatch (mkPlayer "c" 3 Mark.X false) true staleWaiterDemo).1.1 = true := by
  refine ⟨?_, ?_, ?_, ?_⟩ <;> decide

theorem createNewGame_status (gid : Nat) (coin : Bool) (ps : List Player) :
    (GameLogic.createNewGame gid coin ps).status = GameStatus.playing := rfl

/-- C8 amended: matchmaking is strict FIFO and never drops a caller.  With
an empty queue the caller gets a fresh WAITING room and is enqueued
(matched=false).  With a waiter at the head of the queue whose room has
exactly one player — regardless of its status, which the code does not
check — the caller joins that room (matched=true, players exactly the
waiter then the caller, game ACTIVE).  If the popped waiter has no room,
a vanished room, or a room whose player count is not 1, the caller is
placed in a fresh WAITING room and enqueued rather than dropped. -/
theorem findMatch_fifo_and_fallback :
    (∀ (m : Manager) (p : Player) (coin : Bool),
      m.matchmakingQueue = [] →
      (GameManager.findMatch p coin m).1.1 = false ∧
      (GameManager.findMatch p coin m).2.matchmakingQueue = [p.id] ∧
      (GameManager.findMatch p coin m).2.playerRooms p.id = some m.nextId ∧
      (GameManager.findMatch p coin m).2.rooms m.nextId =
        some { id := m.nextId
               game := { id := m.nextId + 1, players := [p],
                         board := GameLogic.createEmptyBoard, currentPlayer := Mark.X,
                         status := GameStatus.waiting, result := GameResult.none }
               spectators := [] }) ∧
    (∀ (m : Manager) (p : Player) (coin : Bool) (w : String) (rid : Nat)
        (room : GameRoom) (pw : Player),
      m.matchmakingQueue = [w] → p.id ≠ w →
      m.playerRooms w = some rid → m.rooms rid = some room →
      room.game.players = [pw] →
      (GameManager.findMatch p coin m).1.1 = true ∧
      ∃ room2, (GameManager.findMatch p coin m).1.2 = some room2 ∧
        room2.game.players.map Player.id = [pw.id, p.id] ∧
        room2.game.status = GameStatus.playing ∧
        (GameManager.findMatch p coin m).2.rooms rid = some room2 ∧
        (GameManager.findMatch p coin m).2.matchmakingQueue = []) ∧
    (∀ (m : Manager) (p : Player) (coin : Bool) (w : String),
      m.matchmakingQueue = [w] → p.id ≠ w →
      (∀ rid room, m.playerRooms w = some rid → m.rooms rid = some room →
        room.game.players.length ≠ 1) →
      (GameManager.findMatch p coin m).1.1 = false ∧
      (GameManager.findMatch p coin m).2.matchmakingQueue = [p.id] ∧
      (GameManager.findMatch p coin m).2.playerRooms p.id = some m.nextId ∧
      (GameManager.findMatch p coin m).2.rooms m.nextId =
        some { id := m.nextId
               game := { id := m.nextId + 1, players := [p],
                         board := GameLogic.createEmptyBoard, currentPlayer := Mark.X,
                         status := GameStatus.waiting, result := GameResult.none }
               spectators := [] }) := by
  refine ⟨?_, ?_, ?_⟩
  · intro m p coin hq
    simp [GameManager.findMatch, hq, removeFirst, GameManager.createRoom,
      Manager.freshId, Manager.setRoom, Manager.setPlayerRoom]
  · intro m p coin w rid room pw hq hne hw hr hps
    have hbeq : (w == p.id) = false := by
      simp only [beq_eq_false_iff_ne]
      exact Ne.symm hne
    refine ⟨?_, ?_⟩
    · simp [GameManager.findMatch, hq, removeFirst, hbeq, hw, hr, hps,
        GameManager.joinRoom, Manager.setRoom, Manager.setPlayerRoom, Manager.freshId]
    · refine ⟨{ room with
                  game := GameLogic.createNewGame m.nextId coin (room.game.players ++ [p]) },
              ?_, ?_, ?_, ?_, ?_⟩
      · simp [GameManager.findMatch, hq, removeFirst, hbeq, hw, hr, hps,
          GameManager.joinRoom, Manager.setRoom, Manager.setPlayerRoom, Manager.freshId]
      · rw [createNewGame_players_map_id]
        simp [hps]
      · exact createNewGame_status _ _ _
      · simp [GameManager.findMatch, hq, removeFirst, hbeq, hw, hr, hps,
          GameManager.joinRoom, Manager.setRoom, Manager.setPlayerRoom, Manager.freshId]
      · simp [GameManager.findMatch, hq, removeFirst, hbeq, hw, hr, hps,
          GameManager.joinRoom, Manager.setRoom, Manager.setPlayerRoom, Manager.freshId]
  · intro m p coin w hq hne hbad
    have hbeq : (w == p.id) = false := by
      simp only [beq_eq_false_iff_ne]
      exact Ne.symm hne
    cases hpw : m.playerRooms w with
    | none =>
      simp [GameManager.findMatch, hq, removeFirst, hbeq, hpw, GameManager.createRoom,
        Manager.freshId, Manager.setRoom, Manager.setPlayerRoom]
    | some rid =>
      cases hrw : m.rooms rid with
      | none =>
        simp [GameManager.findMatch, hq, removeFirst, hbeq, hpw, hrw,
          GameManager.createRoom, Manager.freshId, Manager.setRoom, Manager.setPlayerRoom]
      | some room =>
        have hlen := hbad rid room hpw hrw
        simp [GameManager.findMatch, hq, removeFirst, hbeq, hpw, hrw, hlen,
          GameManager.createRoom, Manager.freshId, Manager.setRoom, Manager.setPlayerRoom]

/-- C8 amended witness: the first seeker on an empty queue is not matched
and waits in a fresh room. -/
theorem findMatch_fifo_and_fallback_witness :
    (GameManager.findMatch (mkPlayer "a" 1 Mark.X false) true Manager.empty).1.1 = false :=
  (findMatch_fifo_and_fallback.1 Manager.empty (mkPlayer "a" 1 Mark.X false) true rfl).1

/-- C3: the error taxonomy of `GameManager.makeMove`, on any registry
whose `playerRooms` entry for the caller (if any) points at a registered
room (true of every reachable registry): not-in-room exactly when the
caller has no room; then game-not-active exactly when the status is not
`playing`; then player-not-found exactly when the caller is not among the
game's players; then not-your-turn exactly when the caller's mark differs
from `currentPlayer`; then invalid-move exactly when the target cell is
out of range or occupied; success otherwise, and every failure leaves the
registry (board, turn, status, result included) unchanged. -/
theorem makeMove_error_taxonomy (db : DbSink) (pid : String) (row col : Int)
    (m : Manager)
    (hwf : ∀ rid, m.playerRooms pid = some rid → ∃ room, m.rooms rid = some room) :
    ((GameManager.makeMove db pid row col m).1.error = some "Player not in any room" ↔
      m.playerRooms pid = Option.none) ∧
    (∀ rid room, m.playerRooms pid = some rid → m.rooms rid = some room →
      (((GameManager.makeMove db pid row col m).1.error = some "Game is not active") ↔
        room.game.status ≠ GameStatus.playing) ∧
      (((GameManager.makeMove db pid row col m).1.error = some "Player not found") ↔
        (room.game.status = GameStatus.playing ∧
         room.game.players.find? (fun q => q.id == pid) = Option.none)) ∧
      (∀ q, room.game.players.find? (fun q2 => q2.id == pid) = some q →
        (((GameManager.makeMove db pid row col m).1.error = some "Not your turn") ↔
          (room.game.status = GameStatus.playing ∧ q.symbol ≠ room.game.currentPlayer)) ∧
        (((GameManager.makeMove db pid row col m).1.error = some "Invalid move") ↔
          (room.game.status = GameStatus.playing ∧ q.symbol = room.game.currentPlayer ∧
           GameLogic.isValidMove room.game.board row col = false)) ∧
        (((GameManager.makeMove db pid row col m).1.success = true) ↔
          (room.game.status = GameStatus.playing ∧ q.symbol = room.game.currentPlayer ∧
           GameLogic.isValidMove room.game.board row col = true)))) ∧
    ((GameManager.makeMove db pid row col m).1.success = false →
      (GameManager.makeMove db pid row col m).2.1 = m) := by
  cases hpr : m.playerRooms pid with
  | none =>
    refine ⟨by simp [GameManager.makeMove, hpr], ?_, ?_⟩
    · intro rid room h1
      simp at h1
    · intro h
      simp [GameManager.makeMove, hpr]
  | some rid =>
    obtain ⟨room, hroom⟩ := hwf rid hpr
    have step2 : ∀ rid2 room2, some rid = some rid2 → m.rooms rid2 = some room2 →
        rid2 = rid ∧ room2 = room := by
      intro rid2 room2 h1 h2
      cases h1
      rw [hroom] at h2
      cases h2
      exact ⟨rfl, rfl⟩
    by_cases hstat : room.game.status = GameStatus.playing
    · cases hfind : room.game.players.find? (fun q2 => q2.id == pid) with
      | none =>
        refine ⟨?_, ?_, ?_⟩
        · simp [GameManager.makeMove, GameLogic.makeMove, hpr, hroom, hstat, hfind]
        · intro rid2 room2 h1 h2
          obtain ⟨rfl, rfl⟩ := step2 rid2 room2 h1 h2
          refine ⟨?_, ?_, ?_⟩
          · simp [GameManager.makeMove, GameLogic.makeMove, hpr, hroom, hstat, hfind]
          · simp [GameManager.makeMove, GameLogic.makeMove, hpr, hroom, hstat, hfind]
          · intro q hq
            rw [hfind] at hq
            cases hq
        · intro h
          simp [GameManager.makeMove, GameLogic.makeMove, hpr, hroom, hstat, hfind]
      | some player =>
        by_cases hsym : player.symbol = room.game.currentPlayer
        · by_cases hval : GameLogic.isValidMove room.game.board row col
          · refine ⟨?_, ?_, ?_⟩
            · simp [GameManager.makeMove, GameLogic.makeMove, hpr, hroom, hstat, hfind,
                hsym, hval]
            · intro rid2 room2 h1 h2
              obtain ⟨rfl, rfl⟩ := step2 rid2 room2 h1 h2
              refine ⟨?_, ?_, ?_⟩
              · simp [GameManager.makeMove, GameLogic.makeMove, hpr, hroom, hstat, hfind,
                  hsym, hval]
              · simp [GameManager.makeMove, GameLogic.makeMove, hpr, hroom, hstat, hfind,
                  hsym, hval]
              · intro q hq
                rw [hfind] at hq
                cases hq
                refine ⟨?_, ?_, ?_⟩ <;>
                  simp [GameManager.makeMove, GameLogic.makeMove, hpr, hroom, hstat, hfind,
                    hsym, hval]
            · intro h
              simp [GameManager.makeMove, GameLogic.makeMove, hpr, hroom, hstat, hfind,
                hsym, hval] at h
          · refine ⟨?_, ?_, ?_⟩
            · simp [GameManager.makeMove, GameLogic.makeMove, hpr, hroom, hstat, hfind,
                hsym, hval]
            · intro rid2 room2 h1 h2
              obtain ⟨rfl, rfl⟩ := step2 rid2 room2 h1 h2
              refine ⟨?_, ?_, ?_⟩
              · simp [GameManager.makeMove, GameLogic.makeMove, hpr, hroom, hstat, hfind,
                  hsym, hval]
              · simp [GameManager.makeMove, GameLogic.makeMove, hpr, hroom, hstat, hfind,
                  hsym, hval]
              · intro q hq
                rw [hfind] at hq
                cases hq
                refine ⟨?_, ?_, ?_⟩ <;>
                  simp [GameManager.makeMove, GameLogic.makeMove, hpr, hroom, hstat, hfind,
                    hsym, hval]
            · intro h
              simp [GameManager.makeMove, GameLogic.makeMove, hpr, hroom, hstat, hfind,
                hsym, hval]
        · refine ⟨?_, ?_, ?_⟩
          · simp [GameManager.makeMove, GameLogic.makeMove, hpr, hroom, hstat, hfind, hsym]
          · intro rid2 room2 h1 h2
            obtain ⟨rfl, rfl⟩ := step2 rid2 room2 h1 h2
            refine ⟨?_, ?_, ?_⟩
            · simp [GameManager.makeMove, GameLogic.makeMove, hpr, hroom, hstat, hfind, hsym]
            · simp [GameManager.makeMove, GameLogic.makeMove, hpr, hroom, hstat, hfind, hsym]
            · intro q hq
              rw [hfind] at hq
              cases hq
              refine ⟨?_, ?_, ?_⟩ <;>
                simp [GameManager.makeMove, GameLogic.makeMove, hpr, hroom, hstat, hfind, hsym]
          · intro h
            simp [GameManager.makeMove, GameLogic.makeMove, hpr, hroom, hstat, hfind, hsym]
    · refine ⟨?_, ?_, ?_⟩
      · simp [GameManager.makeMove, GameLogic.makeMove, hpr, hroom, hstat]
      · intro rid2 room2 h1 h2
        obtain ⟨rfl, rfl⟩ := step2 rid2 room2 h1 h2
        refine ⟨?_, ?_, ?_⟩
        · simp [GameManager.makeMove, GameLogic.makeMove, hpr, hroom, hstat]
        · simp [GameManager.makeMove, GameLogic.makeMove, hpr, hroom, hstat]
        · intro q hq
          refine ⟨?_, ?_, ?_⟩ <;>
            simp [GameManager.makeMove, GameLogic.makeMove, hpr, hroom, hstat]
      · intro h
        simp [GameManager.makeMove, GameLogic.makeMove, hpr, hroom, hstat]

/-- C3 witness: an unmapped connection gets the not-in-room error. -/
theorem makeMove_error_taxonomy_witness :
    (GameManager.makeMove { saveGameOk := true, statsOk := true } "zz" 0 0
      spectatorDemo).1.error = some "Player not in any room" :=
  (makeMove_error_taxonomy { saveGameOk := true, statsOk := true } "zz" 0 0 spectatorDemo
    (fun rid h => by
      have hz : spectatorDemo.playerRooms "zz" = Option.none := by decide
      rw [hz] at h
      cases h)).1.mpr (by decide)

/-- One mutating public operation of the registry, applied with arbitrary
arguments. -/
inductive Step : Manager → Manager → Prop where
  | createRoom (p : Player) (m : Manager) : Step m (GameManager.createRoom p m).2
  | joinRoom (rid : Nat) (p : Player) (coin : Bool) (m : Manager) :
      Step m (GameManager.joinRoom rid p coin m).2
  | findMatch (p : Player) (coin : Bool) (m : Manager) :
      Step m (GameManager.findMatch p coin m).2
  | makeMove (db : DbSink) (pid : String) (row col : Int) (m : Manager) :
      Step m (GameManager.makeMove db pid row col m).2.1
  | handleRematch (pid : String) (m : Manager) : Step m (GameManager.handleRematch pid m).2
  | leaveRoom (pid : String) (m : Manager) : Step m (GameManager.leaveRoom pid m).2

/-- Registry states reachable from a fresh `GameManager` by any sequence
of public operations. -/
inductive Reachable : Manager → Prop where
  | init : Reachable Manager.empty
  | step {m m2 : Manager} : Reachable m → Step m m2 → Reachable m2

/-- The inductive registry invariant: unissued ids are unused, every room
has at most two players, and every `playerRooms` entry points at a
registered room that lists the connection among its players. -/
def GoodRegistry (m : Manager) : Prop :=
  (∀ k, m.nextId ≤ k → m.rooms k = Option.none) ∧
  (∀ rid room, m.rooms rid = some room → room.game.players.length ≤ 2) ∧
  (∀ c rid, m.playerRooms c = some rid →
    ∃ room, m.rooms rid = some room ∧ c ∈ room.game.players.map Player.id)

theorem updateById_length (ps : List Player) (pid : String) (f : Player → Player) :
    (updateById ps pid f).length = ps.length := by
  simp [updateById]

theorem createNewGame_players_length (gid : Nat) (coin : Bool) (ps : List Player) :
    (GameLogic.createNewGame gid coin ps).players.length = ps.length := by
  have h := createNewGame_players_map_id gid coin ps
  have h2 := congrArg List.length h
  simpa using h2

theorem foldSwap_map_id (l : List Nat) (acc : List Player) :
    (l.foldl (fun acc i =>
      match acc.get? i with
      | some p =>
          updateById acc p.id
            (fun q => { q with
                          symbol := if q.symbol = Mark.X then Mark.O else Mark.X
                          isReady := false })
      | Option.none => acc) acc).map Player.id = acc.map Player.id := by
  induction l generalizing acc with
  | nil => rfl
  | cons a l ih =>
    rw [List.foldl_cons, ih]
    cases h : acc.get? a with
    | none => rfl
    | some p => exact updateById_map_id _ _ _ (fun q => rfl)

theorem swapSymbolsLoop_map_id (ps : List Player) :
    (GameLogic.swapSymbolsLoop ps).map Player.id = ps.map Player.id := by
  unfold GameLogic.swapSymbolsLoop
  exact foldSwap_map_id _ _

theorem swapSymbolsLoop_length (ps : List Player) :
    (GameLogic.swapSymbolsLoop ps).length = ps.length := by
  have h2 := congrArg List.length (swapSymbolsLoop_map_id ps)
  simpa using h2

theorem gameLogic_makeMove_players (g : GameState) (pid : String) (row col : Int) :
    (GameLogic.makeMove g pid row col).2.players = g.players := by
  by_cases hstat : g.status ≠ GameStatus.playing
  · simp [GameLogic.makeMove, hstat]
  · cases hfind : g.players.find? (fun p => p.id == pid) with
    | none => simp [GameLogic.makeMove, hstat, hfind]
    | some player =>
      by_cases hsym : player.symbol ≠ g.currentPlayer
      · simp [GameLogic.makeMove, hstat, hfind, hsym]
      · by_cases hval : GameLogic.isValidMove g.board row col
        · push_neg at hsym
          cases hres : GameLogic.checkGameResult
              (setCell g.board row.toNat col.toNat (some g.currentPlayer)) with
          | none => simp [GameLogic.makeMove, hstat, hfind, hsym, hval, hres]
          | mark mm => simp [GameLogic.makeMove, hstat, hfind, hsym, hval, hres]
          | draw => simp [GameLogic.makeMove, hstat, hfind, hsym, hval, hres]
        · push_neg at hsym
          simp [GameLogic.makeMove, hstat, hfind, hsym, hval]

theorem mem_map_id_filter (ps : List Player) (c cid : String) (hc : c ≠ cid)
    (hmem : c ∈ ps.map Player.id) :
    c ∈ (ps.filter (fun p => ¬ p.id == cid)).map Player.id := by
  simp only [List.mem_map, List.mem_filter] at hmem ⊢
  obtain ⟨p, hp, rfl⟩ := hmem
  exact ⟨p, ⟨hp, by simpa using hc⟩, rfl⟩

theorem goodRegistry_createRoom (p : Player) (m : Manager) (h : GoodRegistry m) :
    GoodRegistry (GameManager.createRoom p m).2 := by
  obtain ⟨hfresh, hbound, hreg⟩ := h
  have hchar : (GameManager.createRoom p m).2 =
      { rooms := fun k => if k = m.nextId then
          some { id := m.nextId
                 game := { id := m.nextId + 1, players := [p],
                           board := GameLogic.createEmptyBoard, currentPlayer := Mark.X,
                           status := GameStatus.waiting, result := GameResult.none }
                 spectators := [] }
          else m.rooms k
        playerRooms := fun k => if k = p.id then some m.nextId else m.playerRooms k
        matchmakingQueue := m.matchmakingQueue
        nextId := m.nextId + 2 } := rfl
  rw [hchar]
  refine ⟨?_, ?_, ?_⟩
  · intro k hk
    simp only at hk ⊢
    rw [if_neg (by omega)]
    exact hfresh k (by omega)
  · intro rid room hr
    simp only at hr
    by_cases he : rid = m.nextId
    · rw [if_pos he] at hr
      cases hr
      simp
    · rw [if_neg he] at hr
      exact hbound rid room hr
  · intro c rid hc
    simp only at hc
    by_cases hcp : c = p.id
    · rw [if_pos hcp] at hc
      cases hc
      refine ⟨{ id := m.nextId
                game := { id := m.nextId + 1, players := [p],
                          board := GameLogic.createEmptyBoard, currentPlayer := Mark.X,
                          status := GameStatus.waiting, result := GameResult.none }
                spectators := [] }, by simp, by simp [hcp]⟩
    · rw [if_neg hcp] at hc
      obtain ⟨room, hroom, hmem⟩ := hreg c rid hc
      have hne : rid ≠ m.nextId := by
        intro he
        rw [he, hfresh m.nextId le_rfl] at hroom
        cases hroom
      exact ⟨room, by simp [if_neg hne, hroom], hmem⟩

theorem goodRegistry_joinRoom (rid0 : Nat) (p : Player) (coin : Bool) (m : Manager)
    (h : GoodRegistry m) : GoodRegistry (GameManager.joinRoom rid0 p coin m).2 := by
  obtain ⟨hfresh, hbound, hreg⟩ := h
  cases hr : m.rooms rid0 with
  | none =>
    have hchar : (GameManager.joinRoom rid0 p coin m).2 = m := by
      simp [GameManager.joinRoom, hr]
    rw [hchar]
    exact ⟨hfresh, hbound, hreg⟩
  | some room0 =>
    have hrid0 : rid0 < m.nextId := by
      by_contra hge
      rw [hfresh rid0 (by omega)] at hr
      cases hr
    by_cases hlen : room0.game.players.length ≥ 2
    · -- spectator path
      have hrooms : ∀ k, ((GameManager.joinRoom rid0 p coin m).2).rooms k =
          if k = rid0 then some { room0 with spectators := room0.spectators ++ [p.id] }
          else m.rooms k := by
        intro k
        simp [GameManager.joinRoom, hr, hlen, Manager.setRoom]
      have hprs : ∀ c, ((GameManager.joinRoom rid0 p coin m).2).playerRooms c =
          m.playerRooms c := by
        intro c
        simp [GameManager.joinRoom, hr, hlen, Manager.setRoom]
      have hnext : ((GameManager.joinRoom rid0 p coin m).2).nextId = m.nextId := by
        simp [GameManager.joinRoom, hr, hlen, Manager.setRoom]
      refine ⟨?_, ?_, ?_⟩
      · intro k hk
        rw [hnext] at hk
        rw [hrooms, if_neg (by omega)]
        exact hfresh k hk
      · intro rid room hrm
        rw [hrooms] at hrm
        by_cases he : rid = rid0
        · rw [if_pos he] at hrm
          cases hrm
          simpa using hbound rid0 room0 hr
        · rw [if_neg he] at hrm
          exact hbound rid room hrm
      · intro c rid hc
        rw [hprs] at hc
        obtain ⟨room, hroom, hmem⟩ := hreg c rid hc
        by_cases he : rid = rid0
        · subst he
          rw [hr] at hroom
          cases hroom
          exact ⟨_, by rw [hrooms, if_pos rfl], by simpa using hmem⟩
        · exact ⟨room, by rw [hrooms, if_neg he]; exact hroom, hmem⟩
    · push_neg at hlen
      have hge2 : ¬ room0.game.players.length ≥ 2 := by omega
      by_cases hstart : (room0.game.players ++ [p]).length = 2
      · -- second-player path, game starts
        have hrooms : ∀ k, ((GameManager.joinRoom rid0 p coin m).2).rooms k =
            if k = rid0 then
              some { room0 with game :=
                       GameLogic.createNewGame m.nextId coin (room0.game.players ++ [p]) }
            else m.rooms k := by
          intro k
          simp only [GameManager.joinRoom, hr, Manager.setRoom, Manager.setPlayerRoom,
            Manager.freshId]
          simp only [if_neg hge2, if_pos hstart]
          by_cases he : k = rid0 <;> simp [he]
        have hprs : ∀ c, ((GameManager.joinRoom rid0 p coin m).2).playerRooms c =
            (if c = p.id then some rid0 else m.playerRooms c) := by
          intro c
          simp only [GameManager.joinRoom, hr, Manager.setRoom, Manager.setPlayerRoom,
            Manager.freshId]
          simp only [if_neg hge2, if_pos hstart]
        have hnext : ((GameManager.joinRoom rid0 p coin m).2).nextId = m.nextId + 1 := by
          simp only [GameManager.joinRoom, hr, Manager.setRoom, Manager.setPlayerRoom,
            Manager.freshId]
          simp only [if_neg hge2, if_pos hstart]
        refine ⟨?_, ?_, ?_⟩
        · intro k hk
          rw [hnext] at hk
          rw [hrooms, if_neg (by omega)]
          exact hfresh k (by omega)
        · intro rid room hrm
          rw [hrooms] at hrm
          by_cases he : rid = rid0
          · rw [if_pos he] at hrm
            cases hrm
            simp only
            rw [createNewGame_players_length, hstart]
          · rw [if_neg he] at hrm
            exact hbound rid room hrm
        · intro c rid hc
          rw [hprs] at hc
          by_cases hcp : c = p.id
          · rw [if_pos hcp] at hc
            cases hc
            refine ⟨_, by rw [hrooms, if_pos rfl], ?_⟩
            simp only
            rw [createNewGame_players_map_id]
            simp [hcp]
          · rw [if_neg hcp] at hc
            obtain ⟨room, hroom, hmem⟩ := hreg c rid hc
            by_cases he : rid = rid0
            · subst he
              rw [hr] at hroom
              cases hroom
              refine ⟨_, by rw [hrooms, if_pos rfl], ?_⟩
              simp only
              rw [createNewGame_players_map_id]
              simp only [List.map_append]
              exact List.mem_append_left _ hmem
            · exact ⟨room, by rw [hrooms, if_neg he]; exact hroom, hmem⟩
      · -- joined an empty room: still waiting
        have hrooms : ∀ k, ((GameManager.joinRoom rid0 p coin m).2).rooms k =
            if k = rid0 then
              some { room0 with game :=
                       { room0.game with players := room0.game.players ++ [p] } }
            else m.rooms k := by
          intro k
          simp only [GameManager.joinRoom, hr, Manager.setRoom, Manager.setPlayerRoom,
            Manager.freshId]
          simp only [if_neg hge2, if_neg hstart]
        have hprs : ∀ c, ((GameManager.joinRoom rid0 p coin m).2).playerRooms c =
            (if c = p.id then some rid0 else m.playerRooms c) := by
          intro c
          simp only [GameManager.joinRoom, hr, Manager.setRoom, Manager.setPlayerRoom,
            Manager.freshId]
          simp only [if_neg hge2, if_neg hstart]
        have hnext : ((GameManager.joinRoom rid0 p coin m).2).nextId = m.nextId := by
          simp only [GameManager.joinRoom, hr, Manager.setRoom, Manager.setPlayerRoom,
            Manager.freshId]
          simp only [if_neg hge2, if_neg hstart]
        refine ⟨?_, ?_, ?_⟩
        · intro k hk
          rw [hnext] at hk
          rw [hrooms, if_neg (by omega)]
          exact hfresh k hk
        · intro rid room hrm
          rw [hrooms] at hrm
          by_cases he : rid = rid0
          · rw [if_pos he] at hrm
            cases hrm
            simp only [List.length_append, List.length_singleton] at hstart ⊢
            omega
          · rw [if_neg he] at hrm
            exact hbound rid room hrm
        · intro c rid hc
          rw [hprs] at hc
          by_cases hcp : c = p.id
          · rw [if_pos hcp] at hc
            cases hc
            refine ⟨_, by rw [hrooms, if_pos rfl], ?_⟩
            simp [hcp]
          · rw [if_neg hcp] at hc
            obtain ⟨room, hroom, hmem⟩ := hreg c rid hc
            by_cases he : rid = rid0
            · subst he
              rw [hr] at hroom
              cases hroom
              refine ⟨_, by rw [hrooms, if_pos rfl], ?_⟩
              simp only [List.map_append]
              exact List.mem_append_left _ hmem
            · exact ⟨room, by rw [hrooms, if_neg he]; exact hroom, hmem⟩

theorem goodRegistry_setQueue (m : Manager) (q : List String) (h : GoodRegistry m) :
    GoodRegistry { m with matchmakingQueue := q } := h

theorem joinRoom_found (rid : Nat) (p : Player) (coin : Bool) (m : Manager)
    (room : GameRoom) (hr : m.rooms rid = some room) :
    (GameManager.joinRoom rid p coin m).1.success = true ∧
    ∃ r, (GameManager.joinRoom rid p coin m).1.room = some r := by
  by_cases hlen : room.game.players.length ≥ 2
  · simp [GameManager.joinRoom, hr, hlen]
  · by_cases hstart : room.game.players.length = 1 <;>
      simp [GameManager.joinRoom, hr, hlen, hstart]

theorem goodRegistry_findMatch (p : Player) (coin : Bool) (m : Manager)
    (h : GoodRegistry m) : GoodRegistry (GameManager.findMatch p coin m).2 := by
  have h1 : GoodRegistry { m with matchmakingQueue := removeFirst m.matchmakingQueue p.id } := h
  cases hq : removeFirst m.matchmakingQueue p.id with
  | nil =>
    have hchar : (GameManager.findMatch p coin m).2 =
        { (GameManager.createRoom p
            { m with matchmakingQueue := removeFirst m.matchmakingQueue p.id }).2 with
          matchmakingQueue :=
            (GameManager.createRoom p
              { m with matchmakingQueue := removeFirst m.matchmakingQueue p.id }).2.matchmakingQueue
              ++ [p.id] } := by
      simp [GameManager.findMatch, hq]
    rw [hchar]
    exact goodRegistry_setQueue _ _ (goodRegistry_createRoom p _ h1)
  | cons w rest =>
    have h2 : GoodRegistry { m with matchmakingQueue := rest } := h
    cases hpw : m.playerRooms w with
    | none =>
      have hchar : (GameManager.findMatch p coin m).2 =
          { (GameManager.createRoom p { m with matchmakingQueue := rest }).2 with
            matchmakingQueue :=
              (GameManager.createRoom p
                { m with matchmakingQueue := rest }).2.matchmakingQueue ++ [p.id] } := by
        simp [GameManager.findMatch, hq, hpw]
      rw [hchar]
      exact goodRegistry_setQueue _ _ (goodRegistry_createRoom p _ h2)
    | some rid =>
      cases hrw : m.rooms rid with
      | none =>
        have hchar : (GameManager.findMatch p coin m).2 =
            { (GameManager.createRoom p { m with matchmakingQueue := rest }).2 with
              matchmakingQueue :=
                (GameManager.createRoom p
                  { m with matchmakingQueue := rest }).2.matchmakingQueue ++ [p.id] } := by
          simp [GameManager.findMatch, hq, hpw, hrw]
        rw [hchar]
        exact goodRegistry_setQueue _ _ (goodRegistry_createRoom p _ h2)
      | some room =>
        by_cases hl : room.game.players.length = 1
        · obtain ⟨hsucc, r, hroom⟩ :=
            joinRoom_found rid p coin { m with matchmakingQueue := rest } room hrw
          have hchar : (GameManager.findMatch p coin m).2 =
              (GameManager.joinRoom rid p coin { m with matchmakingQueue := rest }).2 := by
            simp [GameManager.findMatch, hq, hpw, hrw, hl, hsucc, hroom]
          rw [hchar]
          exact goodRegistry_joinRoom rid p coin _ h2
        · have hchar : (GameManager.findMatch p coin m).2 =
              { (GameManager.createRoom p { m with matchmakingQueue := rest }).2 with
                matchmakingQueue :=
                  (GameManager.createRoom p
                    { m with matchmakingQueue := rest }).2.matchmakingQueue ++ [p.id] } := by
            simp [GameManager.findMatch, hq, hpw, hrw, hl]
          rw [hchar]
          exact goodRegistry_setQueue _ _ (goodRegistry_createRoom p _ h2)

theorem goodRegistry_makeMove (db : DbSink) (pid : String) (row col : Int) (m : Manager)
    (h : GoodRegistry m) : GoodRegistry (GameManager.makeMove db pid row col m).2.1 := by
  obtain ⟨hfresh, hbound, hreg⟩ := h
  cases hpr : m.playerRooms pid with
  | none =>
    have hchar : (GameManager.makeMove db pid row col m).2.1 = m := by
      simp [GameManager.makeMove, hpr]
    rw [hchar]
    exact ⟨hfresh, hbound, hreg⟩
  | some rid =>
    cases hrw : m.rooms rid with
    | none =>
      have hchar : (GameManager.makeMove db pid row col m).2.1 = m := by
        simp [GameManager.makeMove, hpr, hrw]
      rw [hchar]
      exact ⟨hfresh, hbound, hreg⟩
    | some room =>
      have hrid : rid < m.nextId := by
        by_contra hge
        rw [hfresh rid (by omega)] at hrw
        cases hrw
      by_cases hsucc : (GameLogic.makeMove room.game pid row col).1.success = true
      · have hchar : (GameManager.makeMove db pid row col m).2.1 =
            m.setRoom rid
              { room with game := (GameLogic.makeMove room.game pid row col).2 } := by
          simp [GameManager.makeMove, hpr, hrw, hsucc]
        rw [hchar]
        have hplayers := gameLogic_makeMove_players room.game pid row col
        refine ⟨?_, ?_, ?_⟩
        · intro k hk
          simp only [Manager.setRoom] at hk ⊢
          rw [if_neg (by omega)]
          exact hfresh k hk
        · intro rid2 room2 hrm
          simp only [Manager.setRoom] at hrm
          by_cases he : rid2 = rid
          · rw [if_pos he] at hrm
            cases hrm
            simp only [hplayers]
            exact hbound rid room hrw
          · rw [if_neg he] at hrm
            exact hbound rid2 room2 hrm
        · intro c rid2 hc
          simp only [Manager.setRoom] at hc
          obtain ⟨room2, hroom2, hmem⟩ := hreg c rid2 hc
          by_cases he : rid2 = rid
          · subst he
            rw [hrw] at hroom2
            cases hroom2
            refine ⟨{ room with game := (GameLogic.makeMove room.game pid row col).2 },
              ?_, ?_⟩
            · simp [Manager.setRoom]
            · simpa [hplayers] using hmem
          · exact ⟨room2, by simp [Manager.setRoom, if_neg he, hroom2], hmem⟩
      · have hchar : (GameManager.makeMove db pid row col m).2.1 = m := by
          simp [GameManager.makeMove, hpr, hrw, hsucc]
        rw [hchar]
        exact ⟨hfresh, hbound, hreg⟩

theorem goodRegistry_setRoom (m : Manager) (rid : Nat) (room room2 : GameRoom)
    (h : GoodRegistry m) (hrw : m.rooms rid = some room)
    (hmap : room2.game.players.map Player.id = room.game.players.map Player.id) :
    GoodRegistry (m.setRoom rid room2) := by
  obtain ⟨hfresh, hbound, hreg⟩ := h
  have hrid : rid < m.nextId := by
    by_contra hge
    rw [hfresh rid (by omega)] at hrw
    cases hrw
  refine ⟨?_, ?_, ?_⟩
  · intro k hk
    simp only [Manager.setRoom] at hk ⊢
    rw [if_neg (by omega)]
    exact hfresh k hk
  · intro rid2 r2 hrm
    simp only [Manager.setRoom] at hrm
    by_cases he : rid2 = rid
    · rw [if_pos he] at hrm
      cases hrm
      have hb := hbound rid room hrw
      have hlen := congrArg List.length hmap
      simp only [List.length_map] at hlen
      omega
    · rw [if_neg he] at hrm
      exact hbound rid2 r2 hrm
  · intro c rid2 hc
    simp only [Manager.setRoom] at hc
    obtain ⟨r2, hr2, hmem⟩ := hreg c rid2 hc
    by_cases he : rid2 = rid
    · subst he
      rw [hrw] at hr2
      cases hr2
      refine ⟨room2, ?_, ?_⟩
      · simp [Manager.setRoom]
      · rw [hmap]
        exact hmem
    · exact ⟨r2, by simp [Manager.setRoom, if_neg he, hr2], hmem⟩

theorem goodRegistry_freshBump (m : Manager) (h : GoodRegistry m) :
    GoodRegistry { m with nextId := m.nextId + 1 } := by
  obtain ⟨hfresh, hbound, hreg⟩ := h
  refine ⟨?_, hbound, hreg⟩
  intro k hk
  have hk2 : m.nextId + 1 ≤ k := hk
  exact hfresh k (by omega)

theorem goodRegistry_handleRematch (pid : String) (m : Manager) (h : GoodRegistry m) :
    GoodRegistry (GameManager.handleRematch pid m).2 := by
  cases hpr : m.playerRooms pid with
  | none =>
    have hchar : (GameManager.handleRematch pid m).2 = m := by
      simp [GameManager.handleRematch, hpr]
    rw [hchar]; exact h
  | some rid =>
    cases hrw : m.rooms rid with
    | none =>
      have hchar : (GameManager.handleRematch pid m).2 = m := by
        simp [GameManager.handleRematch, hpr, hrw]
      rw [hchar]; exact h
    | some room =>
      by_cases hfin : room.game.status = GameStatus.finished
      · have hfin2 : ¬(room.game.status ≠ GameStatus.finished) := by simp [hfin]
        cases hfind : room.game.players.find? (fun p => p.id == pid) with
        | none =>
          by_cases hall : room.game.players.all (fun p => p.isReady)
          · have hchar : (GameManager.handleRematch pid m).2 =
                ({ m with nextId := m.nextId + 1 }).setRoom rid
                  { room with game := GameLogic.resetGame m.nextId room.game } := by
              simp [GameManager.handleRematch, hpr, hrw, if_neg hfin2, hfind, hall,
                Manager.freshId, Manager.setRoom]
            rw [hchar]
            refine goodRegistry_setRoom _ rid room _ (goodRegistry_freshBump m h) hrw ?_
            simp only [GameLogic.resetGame]
            rw [swapSymbolsLoop_map_id]
          · have hchar : (GameManager.handleRematch pid m).2 = m.setRoom rid room := by
              simp [GameManager.handleRematch, hpr, hrw, if_neg hfin2, hfind, hall,
                Manager.setRoom]
            rw [hchar]
            exact goodRegistry_setRoom _ rid room room h hrw rfl
        | some pf =>
          by_cases hall : (updateById room.game.players pf.id
              (fun q => { q with isReady := true })).all (fun p => p.isReady)
          · have hchar : (GameManager.handleRematch pid m).2 =
                ({ m with nextId := m.nextId + 1 }).setRoom rid
                  { room with game := GameLogic.resetGame m.nextId ({ room.game with players := updateById room.game.players pf.id (fun q => { q with isReady := true }) }) } := by
              simp [GameManager.handleRematch, hpr, hrw, if_neg hfin2, hfind, hall,
                Manager.freshId, Manager.setRoom]
            rw [hchar]
            refine goodRegistry_setRoom _ rid room _ (goodRegistry_freshBump m h) hrw ?_
            simp only [GameLogic.resetGame]
            rw [swapSymbolsLoop_map_id]
            exact updateById_map_id _ _ _ (fun q => rfl)
          · have hchar : (GameManager.handleRematch pid m).2 =
                m.setRoom rid
                  { room with game := { room.game with players := updateById room.game.players pf.id (fun q => { q with isReady := true }) } } := by
              simp [GameManager.handleRematch, hpr, hrw, if_neg hfin2, hfind, hall,
                Manager.setRoom]
            rw [hchar]
            exact goodRegistry_setRoom _ rid room _ h hrw
              (updateById_map_id _ _ _ (fun q => rfl))
      · have hchar : (GameManager.handleRematch pid m).2 = m := by
          simp [GameManager.handleRematch, hpr, hrw, hfin]
        rw [hchar]; exact h

theorem goodRegistry_leaveRoom (cid : String) (m : Manager) (h : GoodRegistry m) :
    GoodRegistry (GameManager.leaveRoom cid m).2 := by
  obtain ⟨hfresh, hbound, hreg⟩ := h
  cases hpr : m.playerRooms cid with
  | none =>
    have hchar : (GameManager.leaveRoom cid m).2 = m := by
      simp [GameManager.leaveRoom, hpr]
    rw [hchar]; exact ⟨hfresh, hbound, hreg⟩
  | some rid =>
    cases hrw : m.rooms rid with
    | none =>
      have hchar : (GameManager.leaveRoom cid m).2 = m := by
        simp [GameManager.leaveRoom, hpr, hrw]
      rw [hchar]; exact ⟨hfresh, hbound, hreg⟩
    | some room =>
      have hrid : rid < m.nextId := by
        by_contra hge
        rw [hfresh rid (by omega)] at hrw
        cases hrw
      by_cases hdel : (room.game.players.filter (fun p => ¬ p.id == cid)).length = 0 ∧
          (room.spectators.filter (fun sid => ¬ sid == cid)).length = 0
      · have hrooms : ∀ k, ((GameManager.leaveRoom cid m).2).rooms k =
            if k = rid then Option.none else m.rooms k := by
          intro k
          simp only [GameManager.leaveRoom, hpr, hrw, Manager.setRoom,
            Manager.delPlayerRoom, Manager.delRoom, if_pos hdel]
          by_cases he : k = rid <;> simp [he]
        have hprs : ∀ c, ((GameManager.leaveRoom cid m).2).playerRooms c =
            if c = cid then Option.none else m.playerRooms c := by
          intro c
          simp only [GameManager.leaveRoom, hpr, hrw, Manager.setRoom,
            Manager.delPlayerRoom, Manager.delRoom, if_pos hdel]
        have hnext : ((GameManager.leaveRoom cid m).2).nextId = m.nextId := by
          simp only [GameManager.leaveRoom, hpr, hrw, Manager.setRoom,
            Manager.delPlayerRoom, Manager.delRoom, if_pos hdel]
        refine ⟨?_, ?_, ?_⟩
        · intro k hk
          rw [hnext] at hk
          rw [hrooms]
          by_cases he : k = rid
          · rw [if_pos he]
          · rw [if_neg he]
            exact hfresh k hk
        · intro rid2 room2 hrm
          rw [hrooms] at hrm
          by_cases he : rid2 = rid
          · rw [if_pos he] at hrm
            cases hrm
          · rw [if_neg he] at hrm
            exact hbound rid2 room2 hrm
        · intro c rid2 hc
          rw [hprs] at hc
          by_cases hcc : c = cid
          · rw [if_pos hcc] at hc
            cases hc
          · rw [if_neg hcc] at hc
            obtain ⟨room2, hroom2, hmem⟩ := hreg c rid2 hc
            by_cases he : rid2 = rid
            · subst he
              rw [hrw] at hroom2
              cases hroom2
              have hmem2 := mem_map_id_filter room.game.players c cid hcc hmem
              have : (room.game.players.filter (fun p => ¬ p.id == cid)).length ≠ 0 := by
                intro h0
                rw [List.length_eq_zero] at h0
                rw [h0] at hmem2
                simp at hmem2
              exact absurd hdel.1 this
            · exact ⟨room2, by rw [hrooms, if_neg he]; exact hroom2, hmem⟩
      · have hrooms : ∀ k, ((GameManager.leaveRoom cid m).2).rooms k =
            if k = rid then
              some { room with
                       game := { room.game with
                                   players := room.game.players.filter (fun p => ¬ p.id == cid) }
                       spectators := room.spectators.filter (fun sid => ¬ sid == cid) }
            else m.rooms k := by
          intro k
          simp only [GameManager.leaveRoom, hpr, hrw, Manager.setRoom,
            Manager.delPlayerRoom, Manager.delRoom, if_neg hdel]
        have hprs : ∀ c, ((GameManager.leaveRoom cid m).2).playerRooms c =
            if c = cid then Option.none else m.playerRooms c := by
          intro c
          simp only [GameManager.leaveRoom, hpr, hrw, Manager.setRoom,
            Manager.delPlayerRoom, Manager.delRoom, if_neg hdel]
        have hnext : ((GameManager.leaveRoom cid m).2).nextId = m.nextId := by
          simp only [GameManager.leaveRoom, hpr, hrw, Manager.setRoom,
            Manager.delPlayerRoom, Manager.delRoom, if_neg hdel]
        refine ⟨?_, ?_, ?_⟩
        · intro k hk
          rw [hnext] at hk
          rw [hrooms, if_neg (by omega)]
          exact hfresh k hk
        · intro rid2 room2 hrm
          rw [hrooms] at hrm
          by_cases he : rid2 = rid
          · rw [if_pos he] at hrm
            cases hrm
            simp only
            calc (room.game.players.filter (fun p => ¬ p.id == cid)).length
                ≤ room.game.players.length := List.length_filter_le _ _
              _ ≤ 2 := hbound rid room hrw
          · rw [if_neg he] at hrm
            exact hbound rid2 room2 hrm
        · intro c rid2 hc
          rw [hprs] at hc
          by_cases hcc : c = cid
          · rw [if_pos hcc] at hc
            cases hc
          · rw [if_neg hcc] at hc
            obtain ⟨room2, hroom2, hmem⟩ := hreg c rid2 hc
            by_cases he : rid2 = rid
            · subst he
              rw [hrw] at hroom2
              cases hroom2
              refine ⟨_, by rw [hrooms, if_pos rfl], ?_⟩
              exact mem_map_id_filter room.game.players c cid hcc hmem
            · exact ⟨room2, by rw [hrooms, if_neg he]; exact hroom2, hmem⟩

theorem goodRegistry_empty : GoodRegistry Manager.empty := by
  refine ⟨fun _ _ => rfl, ?_, ?_⟩
  · intro rid room h
    cases h
  · intro c rid h
    cases h

theorem goodRegistry_step {m m2 : Manager} (h : GoodRegistry m) (hs : Step m m2) :
    GoodRegistry m2 := by
  cases hs with
  | createRoom p m => exact goodRegistry_createRoom p m h
  | joinRoom rid p coin m => exact goodRegistry_joinRoom rid p coin m h
  | findMatch p coin m => exact goodRegistry_findMatch p coin m h
  | makeMove db pid row col m => exact goodRegistry_makeMove db pid row col m h
  | handleRematch pid m => exact goodRegistry_handleRematch pid m h
  | leaveRoom pid m => exact goodRegistry_leaveRoom pid m h

theorem reachable_goodRegistry (m : Manager) (h : Reachable m) : GoodRegistry m := by
  induction h with
  | init => exact goodRegistry_empty
  | step hr hs ih => exact goodRegistry_step ih hs

/-- Two `findMatch` calls by the same connection: the second call removes
the stale queue entry, finds the queue empty, and creates a second room —
the connection is now a player of two registered rooms. -/
def doubleFindDemo : Manager :=
  (GameManager.findMatch (mkPlayer "a" 1 Mark.X false) true
    (GameManager.findMatch (mkPlayer "a" 1 Mark.X false) true Manager.empty).2).2

/-- C6 counterexample: after `findMatch(a); findMatch(a)` — a reachable
state — connection "a" sits in the player lists of the two distinct
registered rooms 0 and 2, refuting "each connectionId occurs in the player
list of at most one registered room". -/
theorem connection_in_two_rooms :
    Reachable doubleFindDemo ∧
    (∃ r1 r2, doubleFindDemo.rooms 0 = some r1 ∧ doubleFindDemo.rooms 2 = some r2 ∧
      "a" ∈ r1.game.players.map Player.id ∧ "a" ∈ r2.game.players.map Player.id) ∧
    doubleFindDemo.playerRooms "a" = some 2 ∧ (0 : Nat) ≠ 2 := by
  refine ⟨?_, ⟨_, _, rfl, rfl, by decide, by decide⟩, by decide, by decide⟩
  exact Reachable.step
    (Reachable.step Reachable.init
      (Step.findMatch (mkPlayer "a" 1 Mark.X false) true Manager.empty))
    (Step.findMatch (mkPlayer "a" 1 Mark.X false) true
      (GameManager.findMatch (mkPlayer "a" 1 Mark.X false) true Manager.empty).2)

/-- C6 amended: in every reachable registry state, each connectionId that
`playerRooms` maps to a room is a player of that (registered) room; the
original at-most-one-room claim fails because stale rooms can retain the
connection (see the counterexample). -/
theorem playerRooms_registered (m : Manager) (h : Reachable m) :
    ∀ c rid, m.playerRooms c = some rid →
      ∃ room, m.rooms rid = some room ∧ c ∈ room.game.players.map Player.id :=
  (reachable_goodRegistry m h).2.2

/-- C6 amended witness: after one `createRoom`, its creator is a player of
the room its `playerRooms` entry names. -/
theorem playerRooms_registered_witness :
    ∃ room, ((GameManager.createRoom (mkPlayer "a" 1 Mark.X false) Manager.empty).2).rooms 0 =
        some room ∧ "a" ∈ room.game.players.map Player.id :=
  playerRooms_registered _
    (Reachable.step Reachable.init
      (Step.createRoom (mkPlayer "a" 1 Mark.X false) Manager.empty))
    "a" 0 (by decide)

/-- C7: from any reachable registry state, `joinRoom` never produces a
room with more than 2 players; when the target room already has 2
players the joiner is appended to the spectator set and the call still
succeeds. -/
theorem joinRoom_at_most_two_players (m : Manager) (h : Reachable m) (rid : Nat)
    (p : Player) (coin : Bool) :
    (∀ rid2 room2, ((GameManager.joinRoom rid p coin m).2).rooms rid2 = some room2 →
      room2.game.players.length ≤ 2) ∧
    (∀ room, m.rooms rid = some room → room.game.players.length = 2 →
      (GameManager.joinRoom rid p coin m).1.success = true ∧
      ((GameManager.joinRoom rid p coin m).2).rooms rid =
        some { room with spectators := room.spectators ++ [p.id] }) := by
  constructor
  · have hg := goodRegistry_joinRoom rid p coin m (reachable_goodRegistry m h)
    exact hg.2.1
  · intro room hroom hlen2
    have hge : room.game.players.length ≥ 2 := by omega
    constructor
    · simp [GameManager.joinRoom, hroom, hge]
    · simp [GameManager.joinRoom, hroom, hge, Manager.setRoom]

/-- C7 witness: the third joiner of a full room becomes a spectator. -/
theorem joinRoom_at_most_two_players_witness :
    (GameManager.joinRoom 0 (mkPlayer "c" 3 Mark.X false) true
      (GameManager.joinRoom 0 (mkPlayer "b" 2 Mark.X false) true
        (GameManager.createRoom (mkPlayer "a" 1 Mark.X false) Manager.empty).2).2).1.success =
      true :=
  ((joinRoom_at_most_two_players _
    (Reachable.step
      (Reachable.step Reachable.init
        (Step.createRoom (mkPlayer "a" 1 Mark.X false) Manager.empty))
      (Step.joinRoom 0 (mkPlayer "b" 2 Mark.X false) true
        (GameManager.createRoom (mkPlayer "a" 1 Mark.X false) Manager.empty).2))
    0 (mkPlayer "c" 3 Mark.X false) true).2 _ rfl (by decide)).1
